import Mathlib

/-!
Shallow embedding of the crabboy Game Boy CPU emulator
(src/clock.rs, src/memory.rs, src/dmgcpu.rs, src/main.rs).

Machine integers are modelled as `Nat` with explicit masking / modular
reduction where the Rust code relies on fixed-width behaviour.  Fallible
operations (out-of-bounds indexing, `assert!`, integer division by zero,
`todo!()`) are modelled with `Option`: `none` stands for a panic.
-/

/- ----- clock.rs ----- -/

/-- State owned by `Clock`: the shared cycle counter and the configured
frequency.  The counter starts at 0 in `Clock::new`. -/
structure Clock where
  total_cycles : Nat
  clock_speed : Nat
deriving DecidableEq

/-- `Clock::new(speed)`: stores the speed and initialises the counter to 0.
It performs no validation of `speed` and cannot fail. -/
def Clock.new (speed : Nat) : Clock :=
  { total_cycles := 0, clock_speed := speed }

/-- The pacing-period computation performed inside the thread spawned by
`Clock::start`: `1_000_000_000u64 / (*clock_speed as u64)`.  Rust integer
division panics when the divisor is zero, modelled as `none`. -/
def Clock.startPeriod (c : Clock) : Option Nat :=
  if c.clock_speed = 0 then none else some (1000000000 / c.clock_speed)

/-- `Clock::get_total_cycles`: reads the shared counter. -/
def Clock.get_total_cycles (c : Clock) : Nat :=
  c.total_cycles

/- ----- memory.rs ----- -/

/-- `Memory`: a fixed array of `0xFFFF` (65535) bytes, `[u8; 0xFFFF]`.
The statically-sized array is modelled as a total function giving the byte
at each index; its length is the constant `0xFFFF` appearing in every
bounds check (`self.memory.len()`). -/
structure Memory where
  memory : Nat → Nat

/-- `Memory::new`: 65535 zero bytes. -/
def Memory.new : Memory :=
  { memory := fun _ => 0 }

/-- `Memory::read_byte`: `self.memory[address as usize]`; indexing at or
beyond the array length `0xFFFF` panics, modelled as `none`. -/
def Memory.read_byte (m : Memory) (address : Nat) : Option Nat :=
  if address < 0xFFFF then some (m.memory address) else none

/-- `Memory::read_word`: little-endian word from `memory[address]` and
`memory[(address + 1) as u16]`; the `u16` increment wraps at 2^16 and each
indexing panics when out of bounds. -/
def Memory.read_word (m : Memory) (address : Nat) : Option Nat :=
  match m.read_byte address, m.read_byte ((address + 1) % 65536) with
  | some lo, some hi => some (lo ||| (hi <<< 8))
  | _, _ => none

/-- Helper for `Memory::write`: copy `data` into the array starting at
`address` (the slice copy in the Rust code). -/
def Memory.writeBytes : (Nat → Nat) → Nat → List Nat → (Nat → Nat)
  | mem, _, [] => mem
  | mem, address, byte :: rest =>
    Memory.writeBytes (fun i => if i = address then byte else mem i) (address + 1) rest

/-- `Memory::write`: `assert!(address + data.len() <= self.memory.len())`
then copies `data` starting at `address`.  A failed assertion panics,
modelled as `none`. -/
def Memory.write (m : Memory) (address : Nat) (data : List Nat) : Option Memory :=
  if address + data.length ≤ 0xFFFF then
    some { memory := Memory.writeBytes m.memory address data }
  else none

/- ----- dmgcpu.rs: flags and registers ----- -/

def ZERO_FLAG_BYTE_POSITION : Nat := 7
def SUBTRACT_FLAG_BYTE_POSITION : Nat := 6
def HALF_CARRY_FLAG_BYTE_POSITION : Nat := 5
def CARRY_FLAG_BYTE_POSITION : Nat := 4

/-- `FlagRegister`: the four named flag booleans. -/
structure FlagRegister where
  zero : Bool
  subtract : Bool
  half_carry : Bool
  carry : Bool
deriving DecidableEq

/-- `impl From<FlagRegister> for u8`: pack the four flags into bit
positions 7, 6, 5, 4. -/
def FlagRegister.toU8 (flag : FlagRegister) : Nat :=
  ((if flag.zero then 1 else 0) <<< ZERO_FLAG_BYTE_POSITION) |||
  ((if flag.subtract then 1 else 0) <<< SUBTRACT_FLAG_BYTE_POSITION) |||
  ((if flag.half_carry then 1 else 0) <<< HALF_CARRY_FLAG_BYTE_POSITION) |||
  ((if flag.carry then 1 else 0) <<< CARRY_FLAG_BYTE_POSITION)

/-- `impl From<u8> for FlagRegister`: read bit positions 7, 6, 5, 4,
ignoring the rest of the byte. -/
def FlagRegister.ofU8 (byte : Nat) : FlagRegister :=
  { zero := ((byte >>> ZERO_FLAG_BYTE_POSITION) &&& 1) != 0
  , subtract := ((byte >>> SUBTRACT_FLAG_BYTE_POSITION) &&& 1) != 0
  , half_carry := ((byte >>> HALF_CARRY_FLAG_BYTE_POSITION) &&& 1) != 0
  , carry := ((byte >>> CARRY_FLAG_BYTE_POSITION) &&& 1) != 0 }

/-- `Registers`: eight 8-bit registers, `f` held in decoded form. -/
structure Registers where
  a : Nat
  b : Nat
  c : Nat
  d : Nat
  e : Nat
  f : FlagRegister
  h : Nat
  l : Nat
deriving DecidableEq

/-- `Registers::new`: all zero, `f = FlagRegister::from(0)`. -/
def Registers.new : Registers :=
  { a := 0, b := 0, c := 0, d := 0, e := 0, f := FlagRegister.ofU8 0, h := 0, l := 0 }

/-- `Registers::af`: `(a as u16) << 8 | u8::from(f) as u16`. -/
def Registers.af (r : Registers) : Nat :=
  (r.a <<< 8) ||| r.f.toU8

/-- `Registers::write_af`: `a = (value >> 8) as u8`,
`f = FlagRegister::from((value & 0xF0) as u8)`. -/
def Registers.write_af (r : Registers) (value : Nat) : Registers :=
  { r with a := (value >>> 8) &&& 0xFF, f := FlagRegister.ofU8 ((value &&& 0xF0) &&& 0xFF) }

/-- `Registers::bc`. -/
def Registers.bc (r : Registers) : Nat :=
  (r.b <<< 8) ||| r.c

/-- `Registers::write_bc`: high byte into `b`, low byte into `c`. -/
def Registers.write_bc (r : Registers) (value : Nat) : Registers :=
  { r with b := (value >>> 8) &&& 0xFF, c := value &&& 0xFF }

/-- `Registers::de`. -/
def Registers.de (r : Registers) : Nat :=
  (r.d <<< 8) ||| r.e

/-- `Registers::write_de`: high byte into `d`, low byte into `e`. -/
def Registers.write_de (r : Registers) (value : Nat) : Registers :=
  { r with d := (value >>> 8) &&& 0xFF, e := value &&& 0xFF }

/-- `Registers::hl`. -/
def Registers.hl (r : Registers) : Nat :=
  (r.h <<< 8) ||| r.l

/-- `Registers::write_hl`: high byte into `h`, low byte into `l`. -/
def Registers.write_hl (r : Registers) (value : Nat) : Registers :=
  { r with h := (value >>> 8) &&& 0xFF, l := value &&& 0xFF }

/- ----- dmgcpu.rs: the CPU engine ----- -/

/-- `DMGCPU`: registers, program counter, stack pointer, memory, halt/stop
state, retired-cycle counter and the owned clock. -/
structure DMGCPU where
  registers : Registers
  pc : Nat
  sp : Nat
  memory : Memory
  halt : Bool
  stop : Bool
  cycle_count : Nat
  cpu_clock : Clock

/-- `DMGCPU::new(speed)`: zeroed registers, fresh memory with a HALT opcode
(`0x76`) written at `0xFF00`, `pc = 0x0100`, `sp = 0x0000`,
`halt = false`, `stop = true`, `cycle_count = 0`, a fresh clock.
The memory write can panic, hence `Option`. -/
def DMGCPU.new (speed : Nat) : Option DMGCPU :=
  match Memory.new.write 0xFF00 [0x76] with
  | none => none
  | some memory => some
    { registers := Registers.new
    , pc := 0x0100
    , sp := 0x0000
    , memory := memory
    , halt := false
    , stop := true
    , cycle_count := 0
    , cpu_clock := Clock.new speed }

/-- `DMGCPU::execute`: the opcode dispatch.  Returns the updated CPU and
the instruction's cycle cost; `none` models a panic (a memory-bounds
violation inside an arm, or the `todo!()` fallthrough arm for every opcode
outside the implemented subset). -/
def DMGCPU.execute (cpu : DMGCPU) (instr : Nat) : Option (DMGCPU × Nat) :=
  match instr with
  | 0x00 =>   --  NOP : 4 clock cycles
    some ({ cpu with pc := cpu.pc + 1 }, 4)
  | 0x01 =>   --  LD, BC, n16 : 12 clock cycles
    match cpu.memory.read_word (cpu.pc + 1) with
    | none => none
    | some v => some ({ cpu with registers := cpu.registers.write_bc v, pc := cpu.pc + 3 }, 12)
  | 0x02 =>   --  LD, (BC), A : 8 clock cycles
    match cpu.memory.write cpu.registers.bc [cpu.registers.a] with
    | none => none
    | some memory => some ({ cpu with memory := memory, pc := cpu.pc + 1 }, 8)
  | 0x03 =>   --  INC BC : 8 clock cycles
    some ({ cpu with registers := cpu.registers.write_bc ((cpu.registers.bc + 1) % 65536), pc := cpu.pc + 1 }, 8)
  | 0x04 =>   --  INC B : 4 clock cycles
    let r := (cpu.registers.b + 1) % 256
    let hc := decide ((cpu.registers.b &&& 0x0F) + 1 > 0x0F)
    let f := { cpu.registers.f with zero := r == 0, half_carry := hc, subtract := false }
    some ({ cpu with registers := { cpu.registers with b := r, f := f }, pc := cpu.pc + 1 }, 4)
  | 0x05 =>   --  DEC B : 4 clock cycles
    let r := (cpu.registers.b + 255) % 256
    let hc := decide (((cpu.registers.b &&& 0x0F : Nat) : Int) - 1 < 0)
    let f := { cpu.registers.f with zero := r == 0, half_carry := hc, subtract := true }
    some ({ cpu with registers := { cpu.registers with b := r, f := f }, pc := cpu.pc + 1 }, 4)
  | 0x06 =>   --  LD, B, d8 : 8 clock cycles
    match cpu.memory.read_byte (cpu.pc + 1) with
    | none => none
    | some v => some ({ cpu with registers := { cpu.registers with b := v }, pc := cpu.pc + 2 }, 8)
  | 0x07 =>   --  RLCA : 4 clock cycles
    let c := cpu.registers.a &&& 0x80 == 0x80
    let r := ((cpu.registers.a <<< 1) &&& 0xFF) ||| (if cpu.registers.f.carry then 1 else 0)
    let f : FlagRegister := { half_carry := false, subtract := false, zero := false, carry := c }
    some ({ cpu with registers := { cpu.registers with a := r, f := f }, pc := cpu.pc + 1 }, 4)
  | 0x08 =>   --  LD (a16), SP : 20 clock cycles
    match cpu.memory.read_word (cpu.pc + 1) with
    | none => none
    | some addr =>
      match cpu.memory.write addr [cpu.sp &&& 0xFF, (cpu.sp >>> 8) &&& 0xFF] with
      | none => none
      | some memory => some ({ cpu with memory := memory, pc := cpu.pc + 3 }, 20)
  | 0x09 =>   --  ADD HL, BC : 8 clock cycles
    let hc := decide ((cpu.registers.hl &&& 0x07FF) + (cpu.registers.bc &&& 0x07FF) > 0x07FF)
    let cy := decide (cpu.registers.hl > 0xFFFF - cpu.registers.bc)
    let f := { cpu.registers.f with subtract := false, half_carry := hc, carry := cy }
    some ({ cpu with registers := ({ cpu.registers with f := f }).write_hl ((cpu.registers.hl + cpu.registers.bc) % 65536), pc := cpu.pc + 1 }, 8)
  | 0x0A =>   --  LD, A, n : 8 clock cycles
    match cpu.memory.read_byte (cpu.pc + 1) with
    | none => none
    | some v => some ({ cpu with registers := { cpu.registers with a := v }, pc := cpu.pc + 1 }, 8)
  | 0x0B =>   --  DEC BC : 8 clock cycles
    some ({ cpu with registers := cpu.registers.write_bc ((cpu.registers.bc + 65535) % 65536), pc := cpu.pc + 1 }, 8)
  | 0x0C =>   --  INC C : 4 clock cycles
    let r := (cpu.registers.c + 1) % 256
    let hc := decide ((cpu.registers.c &&& 0x0F) + 1 > 0x0F)
    let f := { cpu.registers.f with zero := r == 0, half_carry := hc, subtract := false }
    some ({ cpu with registers := { cpu.registers with c := r, f := f }, pc := cpu.pc + 1 }, 4)
  | 0x0D =>   --  DEC C : 4 clock cycles
    let r := (cpu.registers.c + 255) % 256
    let hc := decide (((cpu.registers.c &&& 0x0F : Nat) : Int) - 1 < 0)
    let f := { cpu.registers.f with zero := r == 0, half_carry := hc, subtract := true }
    some ({ cpu with registers := { cpu.registers with c := r, f := f }, pc := cpu.pc + 1 }, 4)
  | 0x0E =>   --  LC, D, d8 : 8 clock cycles (loads register c)
    match cpu.memory.read_byte (cpu.pc + 1) with
    | none => none
    | some v => some ({ cpu with registers := { cpu.registers with c := v }, pc := cpu.pc + 2 }, 8)
  | 0x0F =>   --  RRCA : 4 clock cycles
    let c := cpu.registers.a &&& 0x01 == 0x01
    let r := (cpu.registers.a >>> 1) ||| (if cpu.registers.f.carry then 0x80 else 0)
    let f : FlagRegister := { half_carry := false, subtract := false, zero := false, carry := c }
    some ({ cpu with registers := { cpu.registers with a := r, f := f }, pc := cpu.pc + 1 }, 4)
  | 0x10 =>   --  STOP : 4 clock cycles
    some ({ cpu with stop := true, pc := cpu.pc + 2 }, 4)
  | 0x11 =>   --  LD, DE, d16 : 12 clock cycles
    match cpu.memory.read_word (cpu.pc + 1) with
    | none => none
    | some v => some ({ cpu with registers := cpu.registers.write_de v, pc := cpu.pc + 3 }, 12)
  | 0x12 =>   --  LD, (DE), A : 8 clock cycles
    match cpu.memory.write cpu.registers.de [cpu.registers.a] with
    | none => none
    | some memory => some ({ cpu with memory := memory, pc := cpu.pc + 1 }, 8)
  | 0x13 =>   --  INC DE : 8 clock cycles
    some ({ cpu with registers := cpu.registers.write_de ((cpu.registers.de + 1) % 65536), pc := cpu.pc + 1 }, 8)
  | 0x14 =>   --  INC D : 4 clock cycles
    let r := (cpu.registers.d + 1) % 256
    let hc := decide ((cpu.registers.d &&& 0x0F) + 1 > 0x0F)
    let f := { cpu.registers.f with zero := r == 0, half_carry := hc, subtract := false }
    some ({ cpu with registers := { cpu.registers with d := r, f := f }, pc := cpu.pc + 1 }, 4)
  | 0x15 =>   --  DEC D : 4 clock cycles
    let r := (cpu.registers.d + 255) % 256
    let hc := decide (((cpu.registers.d &&& 0x0F : Nat) : Int) - 1 < 0)
    let f := { cpu.registers.f with zero := r == 0, half_carry := hc, subtract := true }
    some ({ cpu with registers := { cpu.registers with d := r, f := f }, pc := cpu.pc + 1 }, 4)
  | 0x16 =>   --  LD, D, d8 : 8 clock cycles
    match cpu.memory.read_byte (cpu.pc + 1) with
    | none => none
    | some v => some ({ cpu with registers := { cpu.registers with d := v }, pc := cpu.pc + 2 }, 8)
  | 0x17 =>   --  RLA : 4 clock cycles
    let c := cpu.registers.a &&& 0x80 == 0x80
    let r := ((cpu.registers.a <<< 1) &&& 0xFF) ||| (if c then 1 else 0)
    let f : FlagRegister := { half_carry := false, subtract := false, zero := false, carry := c }
    some ({ cpu with registers := { cpu.registers with a := r, f := f }, pc := cpu.pc + 1 }, 4)
  | 0x1F =>   --  RRA
    let c := cpu.registers.a &&& 0x01 == 0x01
    let r := (cpu.registers.a >>> 1) ||| (if c then 0x80 else 0)
    let f : FlagRegister := { half_carry := false, subtract := false, zero := false, carry := c }
    some ({ cpu with registers := { cpu.registers with a := r, f := f }, pc := cpu.pc + 1 }, 4)
  | 0x76 =>   --  HALT : 4 clock cycles
    some ({ cpu with halt := true, pc := cpu.pc + 1 }, 4)
  | _ => none   --  2_u8..=u8::MAX => todo!()

/-- `DMGCPU::cycle`: fetch the opcode at `pc`, execute it, and add the
returned cycle cost to `cycle_count`. -/
def DMGCPU.cycle (cpu : DMGCPU) : Option DMGCPU :=
  match cpu.memory.read_byte cpu.pc with
  | none => none
  | some instr =>
    match cpu.execute instr with
    | none => none
    | some (cpu2, cost) => some { cpu2 with cycle_count := cpu2.cycle_count + cost }

/- ----- dmgcpu.rs: the run loop, as a step relation ----- -/

/-- The two counters observable by `DMGCPU::run`: the clock thread's
counter and the CPU's local retired-cycle counter. -/
structure RunState where
  clock : Nat
  cycle_count : Nat
deriving DecidableEq

/-- One transition of the clock/CPU system as seen by `DMGCPU::run`:
either the clock thread increments its counter by one, or — when the
pacing gate `get_total_cycles() > cycle_count` permits — the CPU retires
one instruction, adding its cycle cost to `cycle_count`. -/
inductive RunStep : RunState → RunState → Prop
  | tick (s : RunState) : RunStep s ⟨s.clock + 1, s.cycle_count⟩
  | retire (s : RunState) (cpu cpu2 : DMGCPU) (instr cost : Nat)
      (hexec : cpu.execute instr = some (cpu2, cost))
      (hgate : s.clock > s.cycle_count) :
      RunStep s ⟨s.clock, s.cycle_count + cost⟩

/-- States reachable by the run loop from both counters at zero. -/
def RunReachable (s : RunState) : Prop :=
  Relation.ReflTransGen RunStep ⟨0, 0⟩ s

/- ----- concrete CPU states used in the theorems below ----- -/

/-- A CPU state with the given register file and the other fields as
`DMGCPU::new` leaves them (fresh memory, `pc = 0x0100`). -/
def cpuWith (regs : Registers) : DMGCPU :=
  { registers := regs
  , pc := 0x0100
  , sp := 0x0000
  , memory := Memory.new
  , halt := false
  , stop := true
  , cycle_count := 0
  , cpu_clock := Clock.new 4190000 }

/-- A CPU with all registers zero and all flags clear. -/
def cpu0 : DMGCPU := cpuWith Registers.new

/-- A CPU with `A = 0b10101010` and all flags clear (the RLCA test input). -/
def cpuRLCA : DMGCPU := cpuWith { Registers.new with a := 0b10101010 }

/-- A CPU with `A = 0` and the carry flag set. -/
def cpuCarrySet : DMGCPU := cpuWith { Registers.new with f := { FlagRegister.ofU8 0 with carry := true } }

/-- A CPU with `A = 0b11001101` and all flags clear (the repository's
rotate-test input). -/
def cpuRotTest : DMGCPU := cpuWith { Registers.new with a := 0b11001101 }

/- ----- helper lemmas ----- -/

set_option maxRecDepth 4096 in
/-- Packing the decoded flags of a byte reproduces its top nibble. -/
theorem flagRoundTripAux : ∀ b : Nat, b < 256 →
    FlagRegister.toU8 (FlagRegister.ofU8 b) = b &&& 0xF0 := by
  decide

/-- Masking with `0xFF` is reduction mod 256. -/
theorem and255_eq_mod (x : Nat) : x &&& 0xFF = x % 256 := by
  have h : (0xFF : Nat) = 2 ^ 8 - 1 := by norm_num
  rw [h, Nat.and_pow_two_sub_one_eq_mod]

/-- Shifting right by 8 is division by 256. -/
theorem shr8_eq_div (x : Nat) : x >>> 8 = x / 256 := by
  rw [Nat.shiftRight_eq_div_pow]

/-- Shifting left by 8 is multiplication by 256. -/
theorem shl8_eq_mul (x : Nat) : x <<< 8 = x * 256 := by
  rw [Nat.shiftLeft_eq]

/-- Recombining a high byte with a disjoint low byte is addition. -/
theorem or256_eq_add (a b : Nat) (hb : b < 256) : (a * 256) ||| b = a * 256 + b := by
  have h2 : (2 : Nat) ^ 8 = 256 := by norm_num
  have h := Nat.mul_add_lt_is_or (i := 8) (b := b) (by rw [h2]; exact hb) a
  rw [h2, Nat.mul_comm 256 a] at h
  exact h.symm

/-- Splitting a 16-bit value into bytes and recombining them is the
identity. -/
theorem pair_split (v : Nat) (hv : v < 65536) :
    (((v >>> 8) &&& 0xFF) <<< 8) ||| (v &&& 0xFF) = v := by
  rw [shr8_eq_div, and255_eq_mod, and255_eq_mod, shl8_eq_mul,
    or256_eq_add _ _ (Nat.mod_lt _ (by norm_num))]
  omega

/-- Recombining the high byte of `v` with its `0xF0`-masked low byte masks
`v` with `0xFFF0`. -/
theorem af_mask (v : Nat) :
    (((v >>> 8) &&& 0xFF) <<< 8) ||| (v &&& 0xF0) = v &&& 0xFFF0 := by
  apply Nat.eq_of_testBit_eq
  intro j
  have e1 : (0xFF : Nat) = 2 ^ 8 - 1 := by norm_num
  have e2 : (0xF0 : Nat) = (2 ^ 4 - 1) <<< 4 := by decide
  have e3 : (0xFFF0 : Nat) = (2 ^ 12 - 1) <<< 4 := by decide
  rw [e1, e2, e3]
  simp only [Nat.testBit_or, Nat.testBit_and, Nat.testBit_shiftLeft, Nat.testBit_shiftRight,
    Nat.testBit_two_pow_sub_one]
  rcases Nat.lt_or_ge j 4 with h4 | h4
  · simp [show ¬ (4 ≤ j) from by omega, show ¬ (8 ≤ j) from by omega]
  rcases Nat.lt_or_ge j 8 with h8 | h8
  · simp [show (4 ≤ j) from h4, show ¬ (8 ≤ j) from by omega, show j - 4 < 4 from by omega,
      show j - 4 < 12 from by omega]
  rcases Nat.lt_or_ge j 16 with h16 | h16
  · have hj : 8 + (j - 8) = j := by omega
    simp [show (8 ≤ j) from h8, show (4 ≤ j) from by omega, hj, show j - 8 < 8 from by omega,
      show ¬ (j - 4 < 4) from by omega, show j - 4 < 12 from by omega]
  · simp [show ¬ (j - 8 < 8) from by omega, show ¬ (j - 4 < 12) from by omega,
      show ¬ (j - 4 < 4) from by omega]

/-- Every implemented instruction has a positive cycle cost of at most 20. -/
theorem execute_cost_bounds {cpu cpu2 : DMGCPU} {instr cost : Nat}
    (h : cpu.execute instr = some (cpu2, cost)) : 0 < cost ∧ cost ≤ 20 := by
  unfold DMGCPU.execute at h
  repeat' split at h
  all_goals (try simp_all)
  all_goals (obtain ⟨h1, h2⟩ := h; omega)

/- ----- claim theorems ----- -/

/-- Claim C1: contrary to the claim, the RLCA (0x07) and RRCA (0x0F)
handlers feed the PREVIOUS carry flag into the vacated bit.  At the
claim's own input `A = 0b10101010`, carry initially false, RLCA yields
`A = 0b01010100` (not the claimed `0b01010101`), with carry, pc and cost
as listed; and with `A = 0`, carry initially true, RRCA yields `A = 0x80`
and RLCA yields `A = 0x01`, exhibiting the carry feed-through. -/
theorem rlca_rrca_feed_previous_carry :
    ((cpuRLCA.execute 0x07).map fun r => (r.1.registers.a, r.1.registers.f.carry,
        r.1.registers.f.zero, r.1.registers.f.half_carry, r.1.registers.f.subtract,
        r.1.pc, r.2))
      = some (0b01010100, true, false, false, false, 0x0101, 4) ∧
    (0b01010100 : Nat) ≠ 0b01010101 ∧
    ((cpuCarrySet.execute 0x0F).map fun r => (r.1.registers.a, r.1.registers.f.carry))
      = some (0x80, false) ∧
    ((cpuCarrySet.execute 0x07).map fun r => (r.1.registers.a, r.1.registers.f.carry))
      = some (0x01, false) :=
  ⟨rfl, by decide, rfl, rfl⟩

/-- Claim C2: contrary to the claim, the RLA (0x17) and RRA (0x1F)
handlers do NOT rotate through carry: the vacated bit receives the bit
rotated out, not the previous carry flag.  With `A = 0`, carry initially
true, RLA yields `A = 0` (the claim requires `A = 1`) and RRA yields
`A = 0` (the claim requires `A = 0x80`); with `A = 0b11001101`, carry
initially false, RLA yields `A = 0b10011011` — bit 0 set although the
previous carry was clear. -/
theorem rla_rra_ignore_previous_carry :
    ((cpuCarrySet.execute 0x17).map fun r => (r.1.registers.a, r.1.registers.f.carry))
      = some (0x00, false) ∧
    ((cpuCarrySet.execute 0x1F).map fun r => (r.1.registers.a, r.1.registers.f.carry))
      = some (0x00, false) ∧
    (0x00 : Nat) ≠ 0x01 ∧ (0x00 : Nat) ≠ 0x80 ∧
    ((cpuRotTest.execute 0x17).map fun r => (r.1.registers.a, r.1.registers.f.carry,
        r.1.registers.f.zero, r.1.registers.f.half_carry, r.1.registers.f.subtract,
        r.1.pc, r.2))
      = some (0b10011011, true, false, false, false, 0x0101, 4) :=
  ⟨rfl, rfl, by decide, by decide, rfl⟩

/-- Claim C3: contrary to the claim, `Clock::new(0)` succeeds (there is no
validation and no `InvalidConfiguration` error anywhere in the code); the
division `1e9 / frequency` is only performed inside the thread spawned by
`start()`, where a zero frequency divides by zero (modelled as `none`).
For a positive frequency the counter starts at 0 and the period is
`1e9 / frequency` nanoseconds (238 ns at the reference 4.19 MHz). -/
theorem clock_zero_frequency_not_rejected :
    Clock.new 0 = { total_cycles := 0, clock_speed := 0 } ∧
    (Clock.new 0).startPeriod = none ∧
    (Clock.new 4190000).total_cycles = 0 ∧
    (Clock.new 4190000).startPeriod = some 238 :=
  ⟨rfl, rfl, rfl, rfl⟩

/-- Claim C4 (counterexample): at `B = 0x00`, DEC B (0x05) sets half_carry
although the claimed test `(B & 0x0F) + 1 > 0x0F` is false there. -/
theorem dec_half_carry_counterexample :
    ((cpu0.execute 0x05).map fun r => r.1.registers.f.half_carry) = some true ∧
    ¬ ((cpu0.registers.b &&& 0x0F) + 1 > 0x0F) :=
  ⟨rfl, by decide⟩

/-- Claim C4 (amended): the decrement handlers (0x05, 0x0D, 0x15) compute
half_carry with the borrow test `((reg & 0x0F) as i8) - 1 < 0`, i.e.
half_carry is set iff the low nibble is zero — unlike the increment
handlers, which use the `(reg & 0x0F) + 1 > 0x0F` test. -/
theorem dec_half_carry_is_borrow_test (cpu : DMGCPU) :
    ((cpu.execute 0x05).map fun r => r.1.registers.f.half_carry)
      = some (decide (cpu.registers.b &&& 0x0F = 0)) ∧
    ((cpu.execute 0x0D).map fun r => r.1.registers.f.half_carry)
      = some (decide (cpu.registers.c &&& 0x0F = 0)) ∧
    ((cpu.execute 0x15).map fun r => r.1.registers.f.half_carry)
      = some (decide (cpu.registers.d &&& 0x0F = 0)) ∧
    ((cpu.execute 0x04).map fun r => r.1.registers.f.half_carry)
      = some (decide ((cpu.registers.b &&& 0x0F) + 1 > 0x0F)) := by
  refine ⟨?_, ?_, ?_, rfl⟩
  · show some (decide (((cpu.registers.b &&& 0x0F : Nat) : Int) - 1 < 0))
        = some (decide (cpu.registers.b &&& 0x0F = 0))
    congr 1
    rw [decide_eq_decide]
    omega
  · show some (decide (((cpu.registers.c &&& 0x0F : Nat) : Int) - 1 < 0))
        = some (decide (cpu.registers.c &&& 0x0F = 0))
    congr 1
    rw [decide_eq_decide]
    omega
  · show some (decide (((cpu.registers.d &&& 0x0F : Nat) : Int) - 1 < 0))
        = some (decide (cpu.registers.d &&& 0x0F = 0))
    congr 1
    rw [decide_eq_decide]
    omega

/-- Claim C6: every opcode byte outside the implemented subset hits the
`todo!()` fallthrough arm and aborts execution (modelled as `none`) — the
run never continues — but the panic carries no diagnostic payload (sampled
here at 0x18, 0x42, 0x75, 0x77 and 0xFF, for any CPU state). -/
theorem unimplemented_opcode_aborts (cpu : DMGCPU) :
    cpu.execute 0x18 = none ∧ cpu.execute 0x42 = none ∧ cpu.execute 0x75 = none ∧
    cpu.execute 0x77 = none ∧ cpu.execute 0xFF = none :=
  ⟨rfl, rfl, rfl, rfl, rfl⟩

/-- Claim C5 (counterexample): the run-loop gate only requires the polled
clock value to be strictly greater than `cycle_count` before a step, so a
retired instruction can push `cycle_count` past the clock counter: from
`(clock, cycle_count) = (0, 0)`, one clock tick followed by one retired
NOP reaches `(1, 4)`, where `cycle_count ≤ clock` fails. -/
theorem cycle_count_can_exceed_clock :
    RunReachable ⟨1, 4⟩ ∧
    ¬ ((⟨1, 4⟩ : RunState).cycle_count ≤ (⟨1, 4⟩ : RunState).clock) := by
  constructor
  · have h1 : RunStep ⟨0, 0⟩ ⟨1, 0⟩ := RunStep.tick ⟨0, 0⟩
    have h2 : RunStep ⟨1, 0⟩ ⟨1, 4⟩ :=
      RunStep.retire ⟨1, 0⟩ cpu0 ({ cpu0 with pc := cpu0.pc + 1 }) 0x00 4 rfl (by decide)
    exact Relation.ReflTransGen.tail (Relation.ReflTransGen.single h1) h2
  · decide

/-- Claim C5 (amended): every implemented instruction has a positive cycle
cost (of at most 20), so `cycle_count` is monotonically non-decreasing
along the run loop; and since a step is permitted only when the polled
clock value strictly exceeds `cycle_count`, every reachable state
satisfies `cycle_count ≤ clock + 19` (rather than `cycle_count ≤ clock`). -/
theorem cycle_count_bounded_overshoot :
    (∀ cpu cpu2 : DMGCPU, ∀ instr cost : Nat,
        cpu.execute instr = some (cpu2, cost) → 0 < cost ∧ cost ≤ 20) ∧
    (∀ s t : RunState, RunStep s t → s.cycle_count ≤ t.cycle_count) ∧
    (∀ s : RunState, RunReachable s → s.cycle_count ≤ s.clock + 19) := by
  refine ⟨fun cpu cpu2 instr cost h => execute_cost_bounds h, ?_, ?_⟩
  · intro s t hst
    cases hst with
    | tick => exact Nat.le_refl _
    | retire cpu cpu2 instr cost hexec hgate => exact Nat.le_add_right _ _
  · intro s hs
    have hs' : Relation.ReflTransGen RunStep ⟨0, 0⟩ s := hs
    clear hs
    induction hs' with
    | refl => decide
    | tail hab hbc ih =>
      rename_i b c
      cases hbc with
      | tick =>
        show b.cycle_count ≤ (b.clock + 1) + 19
        omega
      | retire cpu cpu2 instr cost hexec hgate =>
        have hc := execute_cost_bounds hexec
        show b.cycle_count + cost ≤ b.clock + 19
        omega

/-- Claim C5 (witness for the amended theorem at the initial state). -/
theorem cycle_count_bounded_overshoot_witness :
    (⟨0, 0⟩ : RunState).cycle_count ≤ (⟨0, 0⟩ : RunState).clock + 19 :=
  cycle_count_bounded_overshoot.2.2 ⟨0, 0⟩ Relation.ReflTransGen.refl

/-- Claim C7: writing then reading a register pair returns the written
16-bit value unchanged for BC, DE and HL; for AF the read-back value is
the written value with its low nibble masked to zero. -/
theorem register_pair_round_trip (r : Registers) (v : Nat) (hv : v < 65536) :
    (r.write_bc v).bc = v ∧ (r.write_de v).de = v ∧ (r.write_hl v).hl = v ∧
    (r.write_af v).af = v &&& 0xFFF0 := by
  refine ⟨?_, ?_, ?_, ?_⟩
  · show (((v >>> 8) &&& 0xFF) <<< 8) ||| (v &&& 0xFF) = v
    exact pair_split v hv
  · show (((v >>> 8) &&& 0xFF) <<< 8) ||| (v &&& 0xFF) = v
    exact pair_split v hv
  · show (((v >>> 8) &&& 0xFF) <<< 8) ||| (v &&& 0xFF) = v
    exact pair_split v hv
  · show (((v >>> 8) &&& 0xFF) <<< 8) ||| (FlagRegister.ofU8 ((v &&& 0xF0) &&& 0xFF)).toU8
        = v &&& 0xFFF0
    have hy : (v &&& 0xF0) &&& 0xFF < 256 :=
      Nat.lt_of_le_of_lt Nat.and_le_right (by norm_num)
    rw [flagRoundTripAux _ hy, Nat.and_assoc, Nat.and_assoc,
      show (0xF0 : Nat) &&& (0xFF &&& 0xF0) = 0xF0 from by decide]
    exact af_mask v

/-- Claim C7 (witness at `v = 0xBEEF`). -/
theorem register_pair_round_trip_witness :
    (Registers.new.write_bc 0xBEEF).bc = 0xBEEF ∧
    (Registers.new.write_de 0xBEEF).de = 0xBEEF ∧
    (Registers.new.write_hl 0xBEEF).hl = 0xBEEF ∧
    (Registers.new.write_af 0xBEEF).af = 0xBEEF &&& 0xFFF0 :=
  register_pair_round_trip Registers.new 0xBEEF (by norm_num)

set_option maxRecDepth 200000 in
/-- Claim C8: decoding any byte into a `FlagRegister` and re-encoding it
yields the byte with its low nibble forced to zero; the four flags read
exactly bits 7, 6, 5, 4, and decode is a left inverse of encode (so the
mapping of flags to the top nibble is a bijection). -/
theorem flag_byte_round_trip :
    (∀ b : Nat, b < 256 →
      FlagRegister.toU8 (FlagRegister.ofU8 b) = b &&& 0xF0 ∧
      (FlagRegister.ofU8 b).zero = b.testBit 7 ∧
      (FlagRegister.ofU8 b).subtract = b.testBit 6 ∧
      (FlagRegister.ofU8 b).half_carry = b.testBit 5 ∧
      (FlagRegister.ofU8 b).carry = b.testBit 4) ∧
    (∀ z s h c : Bool,
      FlagRegister.ofU8 (FlagRegister.toU8 ⟨z, s, h, c⟩) = ⟨z, s, h, c⟩) := by
  constructor
  · decide
  · decide

/-- Claim C8 (witness at `b = 0xAB`). -/
theorem flag_byte_round_trip_witness :
    FlagRegister.toU8 (FlagRegister.ofU8 0xAB) = 0xAB &&& 0xF0 :=
  (flag_byte_round_trip.1 0xAB (by norm_num)).1

/-- Claim C9: `DMGCPU::new` constructs a CPU whose `stop` flag is already
true (before any STOP opcode ran), with `halt = false`, `pc = 0x0100`,
`sp = 0x0000`, `cycle_count = 0`, and a HALT opcode (0x76) pre-seeded at
memory address 0xFF00, for every configured speed. -/
theorem fresh_cpu_state (speed : Nat) :
    ((DMGCPU.new speed).map fun cpu => (cpu.stop, cpu.halt, cpu.pc, cpu.sp, cpu.cycle_count))
      = some (true, false, 0x0100, 0x0000, 0) ∧
    ((DMGCPU.new speed).bind fun cpu => cpu.memory.read_byte 0xFF00) = some 0x76 :=
  ⟨rfl, rfl⟩

/-- Claim C10: the store holds exactly 65,535 bytes (valid indices
0x0000–0xFFFE), so `read_byte` succeeds exactly for addresses up to
0xFFFE and panics at 0xFFFF, and `read_word` succeeds exactly for
addresses up to 0xFFFD — returning the little-endian word formed from the
bytes at `a` and `a + 1` — and panics for 0xFFFE and 0xFFFF. -/
theorem memory_read_partiality (m : Memory) (a : Nat) (ha : a < 65536) :
    ((m.read_byte a).isSome ↔ a ≤ 0xFFFE) ∧
    (m.read_byte 0xFFFF = none) ∧
    ((m.read_word a).isSome ↔ a ≤ 0xFFFD) ∧
    (a ≤ 0xFFFD →
      m.read_byte a = some (m.memory a) ∧
      m.read_byte (a + 1) = some (m.memory (a + 1)) ∧
      m.read_word a = some (m.memory a ||| (m.memory (a + 1) <<< 8))) := by
  refine ⟨?_, ?_, ?_, ?_⟩
  · unfold Memory.read_byte
    by_cases h : a < 0xFFFF
    · rw [if_pos h]
      simp
      omega
    · rw [if_neg h]
      simp
      omega
  · unfold Memory.read_byte
    rw [if_neg (by omega)]
  · unfold Memory.read_word Memory.read_byte
    rcases Nat.lt_or_ge a 0xFFFE with h1 | h1
    · rw [show (a + 1) % 65536 = a + 1 from Nat.mod_eq_of_lt (by omega),
        if_pos (show a < 0xFFFF from by omega), if_pos (show a + 1 < 0xFFFF from by omega)]
      simp
      omega
    rcases Nat.lt_or_ge a 0xFFFF with h2 | h2
    · rw [show (a + 1) % 65536 = a + 1 from Nat.mod_eq_of_lt (by omega),
        if_pos h2, if_neg (by omega)]
      simp
      omega
    · have ha' : a = 0xFFFF := by omega
      subst ha'
      rw [show (0xFFFF + 1) % 65536 = 0 from by norm_num,
        if_neg (by norm_num), if_pos (by norm_num)]
      simp
  · intro h
    unfold Memory.read_word Memory.read_byte
    rw [show (a + 1) % 65536 = a + 1 from Nat.mod_eq_of_lt (by omega),
      if_pos (show a < 0xFFFF from by omega), if_pos (show a + 1 < 0xFFFF from by omega)]
    exact ⟨rfl, rfl, rfl⟩

/-- Claim C10 (witness at `a = 0x1234` on a fresh store). -/
theorem memory_read_partiality_witness :
    ((Memory.new.read_byte 0x1234).isSome ↔ (0x1234 : Nat) ≤ 0xFFFE) ∧
    (Memory.new.read_byte 0xFFFF = none) ∧
    ((Memory.new.read_word 0x1234).isSome ↔ (0x1234 : Nat) ≤ 0xFFFD) ∧
    ((0x1234 : Nat) ≤ 0xFFFD →
      Memory.new.read_byte 0x1234 = some (Memory.new.memory 0x1234) ∧
      Memory.new.read_byte (0x1234 + 1) = some (Memory.new.memory (0x1234 + 1)) ∧
      Memory.new.read_word 0x1234
        = some (Memory.new.memory 0x1234 ||| (Memory.new.memory (0x1234 + 1) <<< 8))) :=
  memory_read_partiality Memory.new 0x1234 (by norm_num)
